import Mathlib

/-!
Verification of the acquisition pipeline of the uce-ct220s-linux repository.

The Rust sources under `src/` are shallowly embedded:
* `src/config.rs`  — protocol constants.
* `src/curve.rs`   — `CurveData`, `DualCurveData`, `parse_and_normalize_curve_data`.
* `src/backend.rs` — `extract_payload`, `parse_hex_line`, the load phase of
  `run_file_reader`, `read_one_curve_from_reports` (replay) and `read_one_curve`
  (live), and the inline publish step of both reader loops.

Bytes are modelled as `Nat`; the `f32` arithmetic of the normalizer is modelled
over `ℚ`.  Every arithmetic operation the normalizer performs on in-range data
(u16 decode, subtraction of two u16-valued floats, absolute value, maximum) is
exact in IEEE single precision for the magnitudes involved, so the rational
model agrees with the float code on everything stated below except that the
final divisions are exact here and correctly rounded in `f32`.
-/

namespace CT220S

/-! ### Constants, from `src/config.rs` -/

def REPORT_DATA_SIZE : Nat := 64
def READ_SIZE : Nat := 65
def POINTS_PER_CURVE : Nat := 512
def REPORTS_PER_CURVE : Nat := 32
def HEADER_MAGIC : List Nat := [0xf0, 0xff]

/-! ### Data model, from `src/curve.rs` -/

/-- Embeds `struct CurveData` of `src/curve.rs`. -/
structure CurveData where
  voltage : List ℚ
  current : List ℚ
  channel : Nat
deriving DecidableEq, Repr

/-- Embeds `struct DualCurveData` of `src/curve.rs`. -/
structure DualCurveData where
  channel0 : Option CurveData
  channel1 : Option CurveData
deriving DecidableEq, Repr

/-- Embeds `DualCurveData::new` of `src/curve.rs`. -/
def DualCurveData.new : DualCurveData := ⟨none, none⟩

/-- Embeds the inline publish step of `run_hid_reader` / `run_file_reader`
(`src/backend.rs`): `if curve.channel == 0 { data.channel0 = Some(curve) }
else { data.channel1 = Some(curve) }`. -/
def publish_curve (d : DualCurveData) (c : CurveData) : DualCurveData :=
  if c.channel = 0 then { d with channel0 := some c } else { d with channel1 := some c }

/-! ### Sample normalizer, from `src/curve.rs` -/

/-- Embeds the quad-decoding loop of `parse_and_normalize_curve_data`:
each 4-byte quad yields `(current_raw, voltage_raw)`, both unsigned 16-bit
little-endian; a trailing partial quad is dropped. -/
def decodeQuads : List Nat → List (ℚ × ℚ)
  | b0 :: b1 :: b2 :: b3 :: rest =>
      ((b0 + 256 * b1 : ℚ), (b2 + 256 * b3 : ℚ)) :: decodeQuads rest
  | _ => []

/-- Embeds the truncation `raw = &data_bytes[..min(POINTS_PER_CURVE*4, len)]`
followed by quad decoding (the loop bound `min(raw.len()/4, POINTS_PER_CURVE)`
is implied by the truncation). -/
def decodePairs (data_bytes : List Nat) : List (ℚ × ℚ) :=
  decodeQuads (data_bytes.take (POINTS_PER_CURVE * 4))

/-- Embeds the median selection of `parse_and_normalize_curve_data`: sort the
values (`sort_by(partial_cmp)`, a total order here since every value is a
small integer) and take the element at index `len / 2`. -/
def medianSelect (l : List ℚ) : ℚ :=
  (List.insertionSort (fun a b => a ≤ b) l).getD (l.length / 2) 0

/-- Embeds `i_vec`: every `current_raw` minus the current median. -/
def centerCurrents (pairs : List (ℚ × ℚ)) : List ℚ :=
  pairs.map (fun p => p.1 - medianSelect (pairs.map Prod.fst))

/-- Embeds `v_vec`: every `voltage_raw` minus the voltage median. -/
def centerVoltages (pairs : List (ℚ × ℚ)) : List ℚ :=
  pairs.map (fun p => p.2 - medianSelect (pairs.map Prod.snd))

/-- Embeds `iter().map(abs).fold(0.0, f32::max)`. -/
def maxAbs (l : List ℚ) : ℚ := (l.map abs).foldl max 0

/-- Embeds `scale = max_i.max(max_v).max(1.0)`. -/
def normScale (pairs : List (ℚ × ℚ)) : ℚ :=
  max (max (maxAbs (centerCurrents pairs)) (maxAbs (centerVoltages pairs))) 1

/-- Embeds the normalization applied to the decoded pair list: the emptiness
check, centering, scaling, and the `(v_norm, i_norm)` output order. -/
def normalizePairs (pairs : List (ℚ × ℚ)) : Except String (List ℚ × List ℚ) :=
  if pairs.isEmpty then Except.error "Aucune paire de données extraite"
  else
    Except.ok ((centerVoltages pairs).map (fun x => x / normScale pairs),
               (centerCurrents pairs).map (fun x => x / normScale pairs))

/-- Embeds `parse_and_normalize_curve_data` of `src/curve.rs`. -/
def parse_and_normalize_curve_data (data_bytes : List Nat) :
    Except String (List ℚ × List ℚ) :=
  normalizePairs (decodePairs data_bytes)

/-! ### Payload extraction and frame reassembly, from `src/backend.rs` -/

/-- Embeds `extract_payload` of `src/backend.rs`. -/
def extract_payload (report : List Nat) : Option (List Nat) :=
  if report.isEmpty then none
  else if report.length = READ_SIZE then some report.tail
  else if report.length = REPORT_DATA_SIZE then some report
  else none

/-- Embeds the header test `payload.len() >= 3 && payload[0] == HEADER_MAGIC[0]
&& payload[1] == HEADER_MAGIC[1]`. -/
def isHeaderPayload (p : List Nat) : Bool :=
  decide (3 ≤ p.length) && (p.getD 0 0 == 0xf0) && (p.getD 1 0 == 0xff)

/-- A report whose extracted payload is a frame header. -/
def isHeaderReport (r : List Nat) : Bool :=
  match extract_payload r with
  | some p => isHeaderPayload p
  | none => false

/-- Embeds the header-seeking loop of `read_one_curve_from_reports` over the
not-yet-consumed suffix of the report list: returns the channel byte and the
number of reports consumed (skipped reports plus the header itself), or `none`
when the suffix is exhausted. -/
def seekHeaderL : List (List Nat) → Option (Nat × Nat)
  | [] => none
  | r :: rs =>
    match extract_payload r with
    | some p =>
        if isHeaderPayload p then some (p.getD 2 0, 1)
        else (seekHeaderL rs).map (fun ci => (ci.1, ci.2 + 1))
    | none => (seekHeaderL rs).map (fun ci => (ci.1, ci.2 + 1))

/-- Embeds the accumulation loop of `read_one_curve_from_reports` over the
slice `reports[idx .. idx + REPORTS_PER_CURVE]` (passed here as a list):
every report must extract, and the payloads are concatenated in order. -/
def accPayloads : List (List Nat) → Except String (List Nat)
  | [] => Except.ok []
  | r :: rs =>
    match extract_payload r with
    | some p => (accPayloads rs).map (fun db => p ++ db)
    | none => Except.error "Payload invalide"

/-- Embeds `read_one_curve_from_reports` of `src/backend.rs`.  The Rust
function mutates `*start_idx`; here the final cursor is returned as the second
component.  The seek loop runs the cursor to `reports.len()` when no header is
found (it never moves a cursor already past the end); the advance-past-header,
the `*start_idx + REPORTS_PER_CURVE > reports.len()` bound check, and the late
`*start_idx += REPORTS_PER_CURVE` are reproduced exactly. -/
def read_one_curve_from_reports (reports : List (List Nat)) (start_idx : Nat) :
    Except String CurveData × Nat :=
  match seekHeaderL (reports.drop start_idx) with
  | none => (Except.error "Pas de header trouvé", max start_idx reports.length)
  | some (channel_id, consumed) =>
    let idx1 := start_idx + consumed
    if reports.length < idx1 + REPORTS_PER_CURVE then
      (Except.error "Pas assez de rapports restants", idx1)
    else
      match accPayloads ((reports.drop idx1).take REPORTS_PER_CURVE) with
      | Except.error e => (Except.error e, idx1)
      | Except.ok data_bytes =>
        match parse_and_normalize_curve_data data_bytes with
        | Except.error e => (Except.error e, idx1 + REPORTS_PER_CURVE)
        | Except.ok (v_norm, i_norm) =>
          (Except.ok ⟨v_norm, i_norm, channel_id⟩, idx1 + REPORTS_PER_CURVE)

/-! ### Live reader, from `src/backend.rs`

`read_one_curve` performs blocking device reads; it is modelled over the finite
sequence of raw reports the device delivers, a device read on an exhausted
sequence being a read error. -/

/-- Embeds the header-waiting loop of `read_one_curve`: consume reports until
one extracts to a header payload; return the channel byte and the remaining
stream. -/
def read_one_curve_seek : List (List Nat) → Except String (Nat × List (List Nat))
  | [] => Except.error "Erreur de lecture"
  | r :: rs =>
    match extract_payload r with
    | some p =>
        if isHeaderPayload p then Except.ok (p.getD 2 0, rs)
        else read_one_curve_seek rs
    | none => read_one_curve_seek rs

/-- Embeds the data loop of `read_one_curve`: perform `n` reads, each of which
must extract, concatenating the payloads. -/
def read_one_curve_acc : Nat → List (List Nat) → Except String (List Nat)
  | 0, _ => Except.ok []
  | _ + 1, [] => Except.error "Erreur de lecture"
  | n + 1, r :: rs =>
    match extract_payload r with
    | some p => (read_one_curve_acc n rs).map (fun db => p ++ db)
    | none => Except.error "Payload invalide"

/-- Embeds `read_one_curve` of `src/backend.rs` over the report stream the
device delivers. -/
def read_one_curve (reports : List (List Nat)) : Except String CurveData :=
  match read_one_curve_seek reports with
  | Except.error e => Except.error e
  | Except.ok (channel_id, rest) =>
    match read_one_curve_acc REPORTS_PER_CURVE rest with
    | Except.error e => Except.error e
    | Except.ok data_bytes =>
      match parse_and_normalize_curve_data data_bytes with
      | Except.error e => Except.error e
      | Except.ok (v_norm, i_norm) => Except.ok ⟨v_norm, i_norm, channel_id⟩

/-! ### Capture-file loading, from `src/backend.rs` -/

/-- Value of an ASCII hexadecimal digit, `none` for every other character. -/
def hexVal (c : Char) : Option Nat :=
  if '0' ≤ c ∧ c ≤ '9' then some (c.toNat - '0'.toNat)
  else if 'a' ≤ c ∧ c ≤ 'f' then some (c.toNat - 'a'.toNat + 10)
  else if 'A' ≤ c ∧ c ≤ 'F' then some (c.toNat - 'A'.toNat + 10)
  else none

/-- Embeds `c.is_ascii_hexdigit()`. -/
def isHexDigitChar (c : Char) : Bool := (hexVal c).isSome

/-- Embeds the step-by-2 loop of `parse_hex_line`: consume the cleaned digit
string two characters at a time (`u8::from_str_radix(_, 16)`); a trailing
unpaired character is not consumed (the `i + 1 < clean.len()` guard). -/
def hexPairsE : List Char → Except String (List Nat)
  | a :: b :: rest =>
    match hexVal a, hexVal b with
    | some va, some vb => (hexPairsE rest).map (fun bs => (16 * va + vb) :: bs)
    | _, _ => Except.error "Erreur parsing hex"
  | _ => Except.ok []

/-- Embeds `parse_hex_line` of `src/backend.rs`: strip non-hex characters,
then decode byte pairs. -/
def parse_hex_line (line : List Char) : Except String (List Nat) :=
  hexPairsE (line.filter isHexDigitChar)

/-- Embeds `str::trim` on a line. -/
def trimChars (l : List Char) : List Char :=
  ((l.dropWhile Char.isWhitespace).reverse.dropWhile Char.isWhitespace).reverse

/-- Embeds the line loop of `run_file_reader`: trim, skip empty and
`#`-comment lines, parse the rest, keep non-empty byte vectors, propagating
any parse error. -/
def loadLines : List (List Char) → Except String (List (List Nat))
  | [] => Except.ok []
  | line :: rest =>
    let t := trimChars line
    if t.isEmpty then loadLines rest
    else if t.getD 0 ' ' == '#' then loadLines rest
    else
      match parse_hex_line t with
      | Except.error e => Except.error e
      | Except.ok bytes =>
        (loadLines rest).map (fun rs => if bytes.isEmpty then rs else bytes :: rs)

/-- Embeds the load phase of `run_file_reader` (`src/backend.rs`): parse every
line, then fail with "Aucune donnée trouvée dans le fichier" when no report was
produced.  Acquisition (the `while running` loop) starts exactly when this
returns `ok`. -/
def run_file_reader_load (lines : List (List Char)) :
    Except String (List (List Nat)) :=
  match loadLines lines with
  | Except.error e => Except.error e
  | Except.ok reports =>
    if reports.isEmpty then Except.error "Aucune donnée trouvée dans le fichier"
    else Except.ok reports

/-! ### Spec-side definition used to test C2's tie-break wording -/

/-- Definition following the spec's words only (not the source): the
"lower-middle element" of an even-length sorted sequence, i.e. the smaller of
the two central elements, at sorted index `len / 2 - 1`. -/
def medianLowerMiddleSpec (l : List ℚ) : ℚ :=
  (List.insertionSort (fun a b => a ≤ b) l).getD (l.length / 2 - 1) 0

/-! ### Helper lemmas: payload extraction and reassembly -/

theorem extract_payload_length {r p : List Nat} (h : extract_payload r = some p) :
    p.length = REPORT_DATA_SIZE := by
  unfold extract_payload at h
  split at h
  · exact absurd h (by simp)
  · split at h
    · cases h
      simp_all [List.length_tail, READ_SIZE, REPORT_DATA_SIZE]
    · split at h
      · cases h; assumption
      · exact absurd h (by simp)

theorem accPayloads_ok {l : List (List Nat)}
    (h : ∀ r ∈ l, (extract_payload r).isSome) :
    ∃ db, accPayloads l = Except.ok db ∧ db.length = REPORT_DATA_SIZE * l.length := by
  induction l with
  | nil => exact ⟨[], rfl, rfl⟩
  | cons r rs ih =>
    obtain ⟨p, hp⟩ := Option.isSome_iff_exists.mp (h r (by simp))
    obtain ⟨db, hdb, hlen⟩ := ih (fun x hx => h x (by simp [hx]))
    refine ⟨p ++ db, ?_, ?_⟩
    · simp [accPayloads, hp, hdb, Except.map]
    · simp [hlen, extract_payload_length hp, List.length_append]
      ring

theorem isHeaderReport_false_iff {r : List Nat} :
    isHeaderReport r = false ↔
      (∀ p, extract_payload r = some p → isHeaderPayload p = false) := by
  unfold isHeaderReport
  cases h : extract_payload r <;> simp

theorem seekHeaderL_cons (r : List Nat) (rs : List (List Nat)) :
    seekHeaderL (r :: rs) =
      match extract_payload r with
      | some p =>
          if isHeaderPayload p then some (p.getD 2 0, 1)
          else (seekHeaderL rs).map (fun ci => (ci.1, ci.2 + 1))
      | none => (seekHeaderL rs).map (fun ci => (ci.1, ci.2 + 1)) := rfl

theorem seekHeaderL_skip {r : List Nat} (h : isHeaderReport r = false)
    (rs : List (List Nat)) :
    seekHeaderL (r :: rs) = (seekHeaderL rs).map (fun ci => (ci.1, ci.2 + 1)) := by
  rw [seekHeaderL_cons]
  cases hE : extract_payload r with
  | none => rfl
  | some p =>
    have : isHeaderPayload p = false := (isHeaderReport_false_iff.mp h) p hE
    simp [this]

theorem seekHeaderL_header {hdr : List Nat} {p : List Nat}
    (hE : extract_payload hdr = some p) (hH : isHeaderPayload p = true)
    (rs : List (List Nat)) :
    seekHeaderL (hdr :: rs) = some (p.getD 2 0, 1) := by
  rw [seekHeaderL_cons, hE]
  simp [hH]

theorem seekHeaderL_append {pre : List (List Nat)}
    (h : ∀ r ∈ pre, isHeaderReport r = false) (rest : List (List Nat)) :
    seekHeaderL (pre ++ rest) =
      (seekHeaderL rest).map (fun ci => (ci.1, ci.2 + pre.length)) := by
  induction pre with
  | nil => cases hS : seekHeaderL rest <;> simp [hS]
  | cons r pre ih =>
    have hr : isHeaderReport r = false := h r (by simp)
    have hrest : ∀ x ∈ pre, isHeaderReport x = false := fun x hx => h x (by simp [hx])
    rw [List.cons_append, seekHeaderL_skip hr, ih hrest]
    cases hS : seekHeaderL rest <;> simp [hS]
    omega

theorem seekHeaderL_bounds {l : List (List Nat)} {ch k : Nat}
    (h : seekHeaderL l = some (ch, k)) : 1 ≤ k ∧ k ≤ l.length := by
  induction l generalizing ch k with
  | nil => simp [seekHeaderL] at h
  | cons r rs ih =>
    rw [seekHeaderL_cons] at h
    cases hE : extract_payload r with
    | none =>
      rw [hE] at h
      cases hS : seekHeaderL rs with
      | none => rw [hS] at h; simp at h
      | some ci =>
        rw [hS] at h
        simp only [Option.map_some', Option.some_inj, Prod.mk.injEq] at h
        have hb := ih (show seekHeaderL rs = some (ci.1, ci.2) by rw [hS])
        rw [List.length_cons]
        omega
    | some p =>
      rw [hE] at h
      by_cases hH : isHeaderPayload p
      · simp only [hH, if_true, Option.some_inj, Prod.mk.injEq] at h
        rw [List.length_cons]
        omega
      · simp only [hH, if_false, Bool.false_eq_true] at h
        cases hS : seekHeaderL rs with
        | none => rw [hS] at h; simp at h
        | some ci =>
          rw [hS] at h
          simp only [Option.map_some', Option.some_inj, Prod.mk.injEq] at h
          have hb := ih (show seekHeaderL rs = some (ci.1, ci.2) by rw [hS])
          rw [List.length_cons]
          omega

theorem decodeQuads_length : ∀ l : List Nat, (decodeQuads l).length = l.length / 4
  | b0 :: b1 :: b2 :: b3 :: rest => by
    have ih := decodeQuads_length rest
    simp [decodeQuads, ih]
    omega
  | [] => by simp [decodeQuads]
  | [a] => by simp [decodeQuads]
  | [a, b] => by simp [decodeQuads]
  | [a, b, c] => by simp [decodeQuads]

theorem parse_ok_of_full_frame {db : List Nat} (h : db.length = 2048) :
    ∃ v i, parse_and_normalize_curve_data db = Except.ok (v, i) := by
  have hps : (decodePairs db).length = 512 := by
    unfold decodePairs
    rw [decodeQuads_length, List.length_take, h]
    rfl
  have hne : ¬ (decodePairs db).isEmpty := by
    rw [List.isEmpty_iff]
    intro hnil
    rw [hnil] at hps
    simp at hps
  unfold parse_and_normalize_curve_data normalizePairs
  simp only [hne, if_false, Bool.false_eq_true]
  exact ⟨_, _, rfl⟩

/-! ### Concrete reports used by counterexamples and witnesses -/

/-- A 64-byte bare header report: magic `f0 ff`, channel byte 5. -/
def demoHeader : List Nat := 0xf0 :: 0xff :: 5 :: List.replicate 61 0

/-- A 64-byte bare all-zero data report. -/
def demoPayload : List Nat := List.replicate 64 0

/-! ### Evaluation equations for the replay reassembler -/

theorem read_from_reports_none {reports : List (List Nat)} {start_idx : Nat}
    (hS : seekHeaderL (reports.drop start_idx) = none) :
    read_one_curve_from_reports reports start_idx =
      (Except.error "Pas de header trouvé", max start_idx reports.length) := by
  unfold read_one_curve_from_reports
  rw [hS]

theorem read_from_reports_some {reports : List (List Nat)} {start_idx ch consumed : Nat}
    (hS : seekHeaderL (reports.drop start_idx) = some (ch, consumed)) :
    read_one_curve_from_reports reports start_idx =
      if reports.length < start_idx + consumed + REPORTS_PER_CURVE then
        (Except.error "Pas assez de rapports restants", start_idx + consumed)
      else
        match accPayloads ((reports.drop (start_idx + consumed)).take REPORTS_PER_CURVE) with
        | Except.error e => (Except.error e, start_idx + consumed)
        | Except.ok data_bytes =>
          match parse_and_normalize_curve_data data_bytes with
          | Except.error e =>
              (Except.error e, start_idx + consumed + REPORTS_PER_CURVE)
          | Except.ok (v_norm, i_norm) =>
              (Except.ok ⟨v_norm, i_norm, ch⟩, start_idx + consumed + REPORTS_PER_CURVE) := by
  unfold read_one_curve_from_reports
  rw [hS]

/-! ### Claim C1 -/

/-- C1: a report sequence made of non-header reports, then one well-formed
header payload (magic in the first two bytes, at least 3 bytes), then exactly
32 extractable payloads, reassembles — starting at cursor 0 — into exactly one
curve whose channel id is the third byte of the header payload; the
concatenated raw buffer is exactly 2048 bytes, the header is consumed, and a
further call from the final cursor finds no curve. -/
theorem C1_frame_reassembly_single_header (pre : List (List Nat)) (hdr : List Nat)
    (payloads : List (List Nat)) (p : List Nat)
    (hpre : ∀ r ∈ pre, isHeaderReport r = false)
    (hE : extract_payload hdr = some p) (hH : isHeaderPayload p = true)
    (hlen : payloads.length = REPORTS_PER_CURVE)
    (hext : ∀ r ∈ payloads, (extract_payload r).isSome) :
    ∃ curve db,
      read_one_curve_from_reports (pre ++ hdr :: payloads) 0 =
        (Except.ok curve, (pre ++ hdr :: payloads).length)
      ∧ curve.channel = p.getD 2 0
      ∧ accPayloads payloads = Except.ok db
      ∧ db.length = 2048
      ∧ (read_one_curve_from_reports (pre ++ hdr :: payloads)
            (pre ++ hdr :: payloads).length).1 = Except.error "Pas de header trouvé" := by
  have hseek : seekHeaderL (((pre ++ hdr :: payloads)).drop 0) = some (p.getD 2 0, 1 + pre.length) := by
    rw [List.drop_zero, seekHeaderL_append hpre, seekHeaderL_header hE hH]
    rfl
  have hstream_len : (pre ++ hdr :: payloads).length = pre.length + 33 := by
    simp [List.length_append, List.length_cons, hlen, REPORTS_PER_CURVE]
  have hdrop : (pre ++ hdr :: payloads).drop (0 + (1 + pre.length)) = payloads := by
    have h1 : pre ++ hdr :: payloads = (pre ++ [hdr]) ++ payloads := by simp
    rw [h1]
    apply List.drop_left'
    simp [List.length_append]
    omega
  have htake : payloads.take REPORTS_PER_CURVE = payloads := by
    rw [← hlen]
    exact List.take_length payloads
  obtain ⟨db, hdb, hdblen⟩ := accPayloads_ok hext
  have hdb2048 : db.length = 2048 := by
    rw [hdblen, hlen]
    rfl
  obtain ⟨v, i, hparse⟩ := parse_ok_of_full_frame hdb2048
  refine ⟨⟨v, i, p.getD 2 0⟩, db, ?_, rfl, hdb, hdb2048, ?_⟩
  · rw [read_from_reports_some hseek,
      if_neg (by rw [hstream_len]; simp [REPORTS_PER_CURVE]; omega), hdrop, htake]
    simp only [hdb, hparse]
    have hcur : 0 + (1 + pre.length) + REPORTS_PER_CURVE = (pre ++ hdr :: payloads).length := by
      rw [hstream_len]
      simp [REPORTS_PER_CURVE]
      omega
    rw [hcur]
  · have hdrop2 : ((pre ++ hdr :: payloads)).drop (pre ++ hdr :: payloads).length = [] :=
      List.drop_length _
    rw [read_from_reports_none (by rw [hdrop2]; rfl)]

/-- C1 witness: a header report followed by 32 zero payloads yields one curve
on channel 5 whose raw buffer is exactly 2048 bytes. -/
theorem C1_witness :
    ∃ curve db,
      read_one_curve_from_reports (([] : List (List Nat)) ++ demoHeader :: List.replicate 32 demoPayload) 0 =
        (Except.ok curve, (([] : List (List Nat)) ++ demoHeader :: List.replicate 32 demoPayload).length)
      ∧ curve.channel = demoHeader.getD 2 0
      ∧ accPayloads (List.replicate 32 demoPayload) = Except.ok db
      ∧ db.length = 2048
      ∧ (read_one_curve_from_reports (([] : List (List Nat)) ++ demoHeader :: List.replicate 32 demoPayload)
            (([] : List (List Nat)) ++ demoHeader :: List.replicate 32 demoPayload).length).1 =
          Except.error "Pas de header trouvé" :=
  C1_frame_reassembly_single_header [] demoHeader (List.replicate 32 demoPayload) demoHeader
    (by simp) (by rfl) (by rfl) (by rfl) (by decide)

/-! ### Claim C5 -/

/-- C5 counterexample: a header followed by a single payload (fewer than 32)
produces the incomplete-frame error, but the cursor is left at 1 — just after
the header — while the stream length is 2, so it is not at end-of-stream. -/
theorem C5_counterexample :
    read_one_curve_from_reports [demoHeader, demoPayload] 0 =
        (Except.error "Pas assez de rapports restants", 1)
      ∧ ([demoHeader, demoPayload] : List (List Nat)).length = 2
      ∧ (1 : Nat) ≠ 2 := by
  refine ⟨?_, rfl, by decide⟩
  rfl

/-- C5 amended: in replay mode, when a header is found but fewer than 32
reports remain after it, reassembly returns the incomplete-frame error
("Pas assez de rapports restants") and leaves the cursor immediately after the
consumed header — at the header's position plus one — not at end-of-stream. -/
theorem C5_incomplete_frame_cursor (pre : List (List Nat)) (hdr : List Nat)
    (rest : List (List Nat)) (p : List Nat)
    (hpre : ∀ r ∈ pre, isHeaderReport r = false)
    (hE : extract_payload hdr = some p) (hH : isHeaderPayload p = true)
    (hshort : rest.length < REPORTS_PER_CURVE) :
    read_one_curve_from_reports (pre ++ hdr :: rest) 0 =
      (Except.error "Pas assez de rapports restants", pre.length + 1) := by
  have hseek : seekHeaderL (((pre ++ hdr :: rest)).drop 0) = some (p.getD 2 0, 1 + pre.length) := by
    rw [List.drop_zero, seekHeaderL_append hpre, seekHeaderL_header hE hH]
    rfl
  have hlen : (pre ++ hdr :: rest).length = pre.length + rest.length + 1 := by
    simp [List.length_append, List.length_cons]
    omega
  rw [read_from_reports_some hseek, if_pos (by rw [hlen]; omega)]
  have : 0 + (1 + pre.length) = pre.length + 1 := by omega
  rw [this]

/-- C5 witness: a lone header report triggers the amended behavior with the
cursor at position 1. -/
theorem C5_witness :
    read_one_curve_from_reports (([] : List (List Nat)) ++ demoHeader :: []) 0 =
      (Except.error "Pas assez de rapports restants", List.length ([] : List (List Nat)) + 1) :=
  C5_incomplete_frame_cursor [] demoHeader [] demoHeader (by simp) (by rfl) (by rfl)
    (by decide)

/-! ### Claim C3 -/

/-- C3 counterexample: inserting one non-extractable report (here `[0]`, a
1-byte report) right after the header changes the reassembly outcome.  With
the bad report present (stream `header :: [0] :: 31 payloads`, 33 reports) the
bound check passes and accumulation aborts with "Payload invalide"; with it
absent (stream `header :: 31 payloads`, 32 reports) the bound check fails with
"Pas assez de rapports restants".  The bad report is therefore not invisible
to the accumulating state. -/
theorem C3_counterexample :
    (read_one_curve_from_reports (demoHeader :: [0] :: List.replicate 31 demoPayload) 0).1 =
        Except.error "Payload invalide"
      ∧ (read_one_curve_from_reports (demoHeader :: List.replicate 31 demoPayload) 0).1 =
          Except.error "Pas assez de rapports restants" := by
  constructor <;> rfl

/-- C3 amended: a non-extractable report is invisible only to the *Seeking*
state: prepending it to a replay stream leaves the reassembly result unchanged
and shifts the final cursor by one, and prepending it to the live stream
leaves `read_one_curve` unchanged.  (In the Accumulating state, by contrast, a
non-extractable report aborts the frame with "Payload invalide", as the
counterexample shows.) -/
theorem C3_seek_skips_non_extractable (bad : List Nat)
    (hbad : extract_payload bad = none) (rs : List (List Nat)) :
    read_one_curve_from_reports (bad :: rs) 0 =
        ((read_one_curve_from_reports rs 0).1, (read_one_curve_from_reports rs 0).2 + 1)
      ∧ read_one_curve (bad :: rs) = read_one_curve rs := by
  have hbadh : isHeaderReport bad = false := by
    simp [isHeaderReport, hbad]
  constructor
  · cases hS : seekHeaderL rs with
    | none =>
      have hS1 : seekHeaderL ((bad :: rs).drop 0) = none := by
        rw [List.drop_zero, seekHeaderL_skip hbadh, hS]
        rfl
      rw [read_from_reports_none hS1, read_from_reports_none (by rw [List.drop_zero, hS])]
      simp
    | some ci =>
      obtain ⟨ch, k⟩ := ci
      have hS1 : seekHeaderL ((bad :: rs).drop 0) = some (ch, k + 1) := by
        rw [List.drop_zero, seekHeaderL_skip hbadh, hS]
        rfl
      rw [read_from_reports_some hS1, read_from_reports_some (by rw [List.drop_zero, hS])]
      simp only [Nat.zero_add, List.length_cons]
      have harith : k + 1 + REPORTS_PER_CURVE = k + REPORTS_PER_CURVE + 1 := by omega
      by_cases hb : rs.length < k + REPORTS_PER_CURVE
      · rw [if_pos (by omega), if_pos hb]
      · rw [if_neg (by omega), if_neg hb, List.drop_succ_cons]
        cases hacc : accPayloads ((rs.drop k).take REPORTS_PER_CURVE) with
        | error e => simp [hacc]
        | ok data_bytes =>
          cases hparse : parse_and_normalize_curve_data data_bytes with
          | error e => simp [hacc, hparse, harith]
          | ok vi =>
            obtain ⟨v, i⟩ := vi
            simp [hacc, hparse, harith]
  · have hseek : read_one_curve_seek (bad :: rs) = read_one_curve_seek rs := by
      conv_lhs => rw [read_one_curve_seek]
      rw [hbad]
    unfold read_one_curve
    rw [hseek]

/-- C3 witness: prepending the non-extractable report `[0]` to the empty
stream shifts the final cursor from 0 to 1 and leaves the error unchanged. -/
theorem C3_witness :
    read_one_curve_from_reports [[0]] 0 =
        ((read_one_curve_from_reports [] 0).1, (read_one_curve_from_reports [] 0).2 + 1)
      ∧ read_one_curve [[0]] = read_one_curve [] :=
  C3_seek_skips_non_extractable [0] (by rfl) []

/-! ### Claim C4 -/

theorem hexPairsE_ok :
    ∀ l : List Char, (∀ c ∈ l, (hexVal c).isSome) →
      ∃ bs, hexPairsE l = Except.ok bs ∧ bs.length = l.length / 2
  | [], _ => ⟨[], rfl, rfl⟩
  | [a], _ => ⟨[], rfl, by simp⟩
  | a :: b :: rest, h => by
    obtain ⟨va, hva⟩ := Option.isSome_iff_exists.mp (h a (by simp))
    obtain ⟨vb, hvb⟩ := Option.isSome_iff_exists.mp (h b (by simp))
    obtain ⟨bs, hbs, hlen⟩ := hexPairsE_ok rest (fun c hc => h c (by simp [hc]))
    refine ⟨(16 * va + vb) :: bs, ?_, ?_⟩
    · simp [hexPairsE, hva, hvb, hbs, Except.map]
    · simp [hlen]
      omega

/-- C4 counterexample: the line "abc" has an odd number (3) of hex digits, yet
the file loads successfully — `parse_hex_line` silently drops the trailing
digit and returns the byte 0xab = 171, and `run_file_reader_load` returns the
report list, so acquisition starts.  The claimed fatal parse error does not
occur. -/
theorem C4_counterexample :
    run_file_reader_load [['a', 'b', 'c']] = Except.ok [[171]]
      ∧ parse_hex_line ['a', 'b', 'c'] = Except.ok [171] := by
  constructor <;> rfl

/-- C4 amended: `parse_hex_line` never fails: every line parses to exactly
`⌊(number of hex digits)/2⌋` bytes, a trailing unpaired hex digit being
silently dropped rather than reported; a file whose lines contain odd digit
runs therefore loads without a parse error (the load fails only when no line
yields any bytes). -/
theorem C4_parse_hex_line_total (line : List Char) :
    ∃ bs, parse_hex_line line = Except.ok bs
      ∧ bs.length = (line.filter isHexDigitChar).length / 2 := by
  apply hexPairsE_ok
  intro c hc
  have := (List.mem_filter.mp hc).2
  simpa [isHexDigitChar] using this

/-! ### Claim C8 -/

theorem getLast?_cons_or {α : Type} (c : α) :
    ∀ m : List α, (c :: m).getLast? = m.getLast?.or (some c)
  | [] => rfl
  | x :: xs => by
    rw [List.getLast?_cons_cons, getLast?_cons_or x xs, Option.or_assoc,
      Option.or_some]

theorem publish_foldl_channel0 (cs : List CurveData) :
    ∀ d : DualCurveData,
      (cs.foldl publish_curve d).channel0 =
        ((cs.filter (fun c => c.channel == 0)).getLast?).or d.channel0 := by
  induction cs with
  | nil => intro d; rfl
  | cons c cs ih =>
    intro d
    rw [List.foldl_cons, ih, List.filter_cons]
    by_cases hc : c.channel = 0
    · rw [if_pos (by simpa using hc), getLast?_cons_or, Option.or_assoc]
      have h0 : (publish_curve d c).channel0 = some c := by
        simp [publish_curve, hc]
      rw [h0]
      rfl
    · rw [if_neg (by simpa using hc)]
      have h0 : (publish_curve d c).channel0 = d.channel0 := by
        simp [publish_curve, hc]
      rw [h0]

theorem publish_foldl_channel1 (cs : List CurveData) :
    ∀ d : DualCurveData,
      (cs.foldl publish_curve d).channel1 =
        ((cs.filter (fun c => c.channel != 0)).getLast?).or d.channel1 := by
  induction cs with
  | nil => intro d; rfl
  | cons c cs ih =>
    intro d
    rw [List.foldl_cons, ih, List.filter_cons]
    by_cases hc : c.channel = 0
    · rw [if_neg (by simpa using hc)]
      have h1 : (publish_curve d c).channel1 = d.channel1 := by
        simp [publish_curve, hc]
      rw [h1]
    · rw [if_pos (by simpa using hc), getLast?_cons_or, Option.or_assoc]
      have h1 : (publish_curve d c).channel1 = some c := by
        simp [publish_curve, hc]
      rw [h1]
      rfl

/-- C8: publishing a channel-0 curve writes only the channel-0 slot of
`DualCurveData` and leaves the channel-1 slot untouched, and a curve with any
other channel id writes only the channel-1 slot; after any sequence of atomic
publishes (each performed under the lock, so a snapshot read sees a prefix of
the sequence), each slot of the resulting state is exactly the last whole
`CurveData` published to that slot (or empty if none was) — never a mixture of
fields from different publishes. -/
theorem C8_publish_isolated_slots (d : DualCurveData) (c : CurveData)
    (cs : List CurveData) :
    (c.channel = 0 →
        publish_curve d c = { d with channel0 := some c })
      ∧ (c.channel ≠ 0 →
        publish_curve d c = { d with channel1 := some c })
      ∧ (cs.foldl publish_curve DualCurveData.new).channel0 =
          (cs.filter (fun x => x.channel == 0)).getLast?
      ∧ (cs.foldl publish_curve DualCurveData.new).channel1 =
          (cs.filter (fun x => x.channel != 0)).getLast? := by
  refine ⟨fun h => by simp [publish_curve, h], fun h => by simp [publish_curve, h], ?_, ?_⟩
  · rw [publish_foldl_channel0]
    cases (cs.filter (fun x => x.channel == 0)).getLast? <;> rfl
  · rw [publish_foldl_channel1]
    cases (cs.filter (fun x => x.channel != 0)).getLast? <;> rfl

/-- C8 witness: with concrete curves `a` (channel 0) and `b` (channel 1),
publishing `a` then `b` fills slot 0 with `a` and slot 1 with `b`, each slot a
whole published value. -/
theorem C8_witness :
    (publish_curve ⟨none, none⟩ ⟨[0], [0], 0⟩ =
        { channel0 := some ⟨[0], [0], 0⟩, channel1 := none })
      ∧ (publish_curve ⟨some ⟨[0], [0], 0⟩, none⟩ ⟨[1], [1], 1⟩ =
        { channel0 := some ⟨[0], [0], 0⟩, channel1 := some ⟨[1], [1], 1⟩ })
      ∧ (([⟨[0], [0], 0⟩, ⟨[1], [1], 1⟩] : List CurveData).foldl publish_curve
            DualCurveData.new).channel0 = some ⟨[0], [0], 0⟩ := by
  refine ⟨(C8_publish_isolated_slots ⟨none, none⟩ ⟨[0], [0], 0⟩ []).1 rfl, ?_, ?_⟩
  · exact (C8_publish_isolated_slots ⟨some ⟨[0], [0], 0⟩, none⟩ ⟨[1], [1], 1⟩ []).2.1
      (by decide)
  · rw [(C8_publish_isolated_slots ⟨none, none⟩ ⟨[0], [0], 0⟩
      [⟨[0], [0], 0⟩, ⟨[1], [1], 1⟩]).2.2.1]
    rfl

/-! ### Median and scale lemmas -/

theorem medianSelect_sorted_perm {l l' : List ℚ} (hp : l'.Perm l)
    (hs : l'.Sorted (fun a b => a ≤ b)) :
    medianSelect l = l'.getD (l.length / 2) 0 := by
  have hsort : List.Sorted (fun a b : ℚ => a ≤ b)
      (List.insertionSort (fun a b => a ≤ b) l) :=
    List.sorted_insertionSort _ l
  have hperm : l'.Perm (List.insertionSort (fun a b => a ≤ b) l) :=
    hp.trans (List.perm_insertionSort _ l).symm
  have heq : l' = List.insertionSort (fun a b => a ≤ b) l :=
    List.eq_of_perm_of_sorted hperm hs hsort
  rw [medianSelect, ← heq]

theorem medianSelect_mem {l : List ℚ} (hne : l ≠ []) : medianSelect l ∈ l := by
  have hlen : (List.insertionSort (fun a b : ℚ => a ≤ b) l).length = l.length :=
    (List.perm_insertionSort _ l).length_eq
  have hpos : 0 < l.length := List.length_pos.mpr hne
  have hi : l.length / 2 < (List.insertionSort (fun a b : ℚ => a ≤ b) l).length := by
    rw [hlen]
    exact Nat.div_lt_self hpos (by omega)
  rw [medianSelect, List.getD_eq_getElem _ 0 hi]
  exact (List.perm_insertionSort _ l).mem_iff.mp (List.getElem_mem hi)

theorem medianSelect_const {l : List ℚ} {c : ℚ} (hne : l ≠ [])
    (h : ∀ x ∈ l, x = c) : medianSelect l = c :=
  h _ (medianSelect_mem hne)

theorem medianSelect_map_add {l : List ℚ} (hne : l ≠ []) (k : ℚ) :
    medianSelect (l.map (fun x => x + k)) = medianSelect l + k := by
  have hs : List.Sorted (fun a b : ℚ => a ≤ b)
      ((List.insertionSort (fun a b => a ≤ b) l).map (fun x => x + k)) :=
    List.Pairwise.map _ (fun a b hab => by exact add_le_add_right hab k)
      (List.sorted_insertionSort _ l)
  have hp : ((List.insertionSort (fun a b => a ≤ b) l).map (fun x => x + k)).Perm
      (l.map (fun x => x + k)) :=
    (List.perm_insertionSort _ l).map _
  rw [medianSelect_sorted_perm hp hs]
  have hlen : (List.insertionSort (fun a b : ℚ => a ≤ b) l).length = l.length :=
    (List.perm_insertionSort _ l).length_eq
  have hpos : 0 < l.length := List.length_pos.mpr hne
  have hidx : l.length / 2 < (List.insertionSort (fun a b : ℚ => a ≤ b) l).length := by
    rw [hlen]
    exact Nat.div_lt_self hpos (by omega)
  have hidx2 : l.length / 2 <
      ((List.insertionSort (fun a b : ℚ => a ≤ b) l).map (fun x => x + k)).length := by
    rw [List.length_map]
    exact hidx
  rw [List.length_map, List.getD_eq_getElem _ 0 hidx2, List.getElem_map,
    medianSelect, List.getD_eq_getElem _ 0 hidx]

theorem init_le_foldl_max : ∀ (m : List ℚ) (b : ℚ), b ≤ m.foldl max b := by
  intro m
  induction m with
  | nil => intro b; simp
  | cons z m ih =>
    intro b
    calc b ≤ max b z := le_max_left b z
      _ ≤ m.foldl max (max b z) := ih (max b z)

theorem le_foldl_max : ∀ (m : List ℚ) (b x : ℚ), x ∈ m → x ≤ m.foldl max b := by
  intro m
  induction m with
  | nil => intro b x hx; simp at hx
  | cons z m ih =>
    intro b x hx
    rcases List.mem_cons.mp hx with hz | hm
    · subst hz
      calc x ≤ max b x := le_max_right b x
        _ ≤ (m.foldl max (max b x)) := init_le_foldl_max m (max b x)
    · exact ih (max b z) x hm

theorem abs_le_maxAbs {l : List ℚ} {x : ℚ} (hx : x ∈ l) : |x| ≤ maxAbs l :=
  le_foldl_max (l.map abs) 0 |x| (List.mem_map_of_mem abs hx)

theorem foldl_max_zeros : ∀ (m : List ℚ) (b : ℚ), (∀ x ∈ m, x = 0) → 0 ≤ b →
    m.foldl max b = b := by
  intro m
  induction m with
  | nil => intro b _ _; rfl
  | cons z m ih =>
    intro b hz hb
    have hz0 : z = 0 := hz z (by simp)
    have : max b z = b := by
      rw [hz0]
      exact max_eq_left hb
    rw [List.foldl_cons, this]
    exact ih b (fun x hx => hz x (by simp [hx])) hb

theorem maxAbs_zeros {l : List ℚ} (h : ∀ x ∈ l, x = 0) : maxAbs l = 0 := by
  apply foldl_max_zeros
  · intro x hx
    obtain ⟨y, hy, rfl⟩ := List.mem_map.mp hx
    rw [h y hy]
    exact abs_zero
  · exact le_refl 0

theorem one_le_normScale (pairs : List (ℚ × ℚ)) : 1 ≤ normScale pairs :=
  le_max_right _ 1

/-! ### Claim C2 -/

/-- C2 counterexample: on the buffer decoding to currents `[10, 20, 30, 40]`
(an even count), the normalizer's median is the element at sorted index
`4 / 2 = 2`, namely 30 — the *upper* of the two central elements — whereas the
claim's "lower-middle element" is 20.  The claimed tie-break is therefore not
the one the code implements. -/
theorem C2_counterexample :
    medianSelect ((decodePairs [10, 0, 1, 0, 20, 0, 1, 0, 30, 0, 1, 0, 40, 0, 1, 0]).map Prod.fst) ≠
        medianLowerMiddleSpec
          ((decodePairs [10, 0, 1, 0, 20, 0, 1, 0, 30, 0, 1, 0, 40, 0, 1, 0]).map Prod.fst)
      ∧ medianSelect
          ((decodePairs [10, 0, 1, 0, 20, 0, 1, 0, 30, 0, 1, 0, 40, 0, 1, 0]).map Prod.fst) = 30
      ∧ medianLowerMiddleSpec
          ((decodePairs [10, 0, 1, 0, 20, 0, 1, 0, 30, 0, 1, 0, 40, 0, 1, 0]).map Prod.fst) = 20 := by
  refine ⟨?_, ?_, ?_⟩ <;> with_unfolding_all decide

/-- C2 amended: for every non-empty decoded pair sequence, the current median
and the voltage median used by the normalizer are obtained by fully sorting
the respective raw-value sequence and selecting the element at index
`count / 2` (integer division) — equivalently, the corresponding element of
*any* sorted permutation of the values — which for an even count is the
upper-middle element, not the lower-middle one and not the average of the two
central elements. -/
theorem C2_median_is_sorted_index (data : List Nat) (lc lv : List ℚ)
    (_hne : decodePairs data ≠ [])
    (hpc : lc.Perm ((decodePairs data).map Prod.fst))
    (hsc : lc.Sorted (fun a b => a ≤ b))
    (hpv : lv.Perm ((decodePairs data).map Prod.snd))
    (hsv : lv.Sorted (fun a b => a ≤ b)) :
    medianSelect ((decodePairs data).map Prod.fst) = lc.getD ((decodePairs data).length / 2) 0
      ∧ medianSelect ((decodePairs data).map Prod.snd) =
          lv.getD ((decodePairs data).length / 2) 0 := by
  constructor
  · rw [medianSelect_sorted_perm hpc hsc, List.length_map]
  · rw [medianSelect_sorted_perm hpv hsv, List.length_map]

/-- C2 witness: on the two-pair buffer decoding to currents `[30, 10]` and
voltages `[20, 40]`, the sorted lists are `[10, 30]` and `[20, 40]` and both
medians are the element at index `2 / 2 = 1`. -/
theorem C2_witness :
    medianSelect ((decodePairs [30, 0, 20, 0, 10, 0, 40, 0]).map Prod.fst) =
        ([10, 30] : List ℚ).getD ((decodePairs [30, 0, 20, 0, 10, 0, 40, 0]).length / 2) 0
      ∧ medianSelect ((decodePairs [30, 0, 20, 0, 10, 0, 40, 0]).map Prod.snd) =
          ([20, 40] : List ℚ).getD ((decodePairs [30, 0, 20, 0, 10, 0, 40, 0]).length / 2) 0 :=
  C2_median_is_sorted_index [30, 0, 20, 0, 10, 0, 40, 0] [10, 30] [20, 40]
    (by with_unfolding_all decide)
    (by with_unfolding_all decide)
    (by with_unfolding_all decide)
    (by with_unfolding_all decide)
    (by with_unfolding_all decide)

/-! ### Claim C6 -/

/-- C6: when every decoded pair is the same `(c, v)` — so every centered value
is exactly 0 — the normalizer does not divide by zero: the scale floors at 1
and both output sequences are all zeros. -/
theorem C6_degenerate_input_all_zero (data : List Nat) (c v : ℚ)
    (hne : decodePairs data ≠ [])
    (hall : ∀ q ∈ decodePairs data, q = (c, v)) :
    parse_and_normalize_curve_data data =
        Except.ok (List.replicate (decodePairs data).length 0,
                   List.replicate (decodePairs data).length 0)
      ∧ normScale (decodePairs data) = 1 := by
  have hfst : ∀ x ∈ (decodePairs data).map Prod.fst, x = c := by
    intro x hx
    obtain ⟨q, hq, rfl⟩ := List.mem_map.mp hx
    rw [hall q hq]
  have hsnd : ∀ x ∈ (decodePairs data).map Prod.snd, x = v := by
    intro x hx
    obtain ⟨q, hq, rfl⟩ := List.mem_map.mp hx
    rw [hall q hq]
  have hmapne : (decodePairs data).map Prod.fst ≠ [] := by
    simpa using hne
  have hmapne2 : (decodePairs data).map Prod.snd ≠ [] := by
    simpa using hne
  have hmc : medianSelect ((decodePairs data).map Prod.fst) = c :=
    medianSelect_const hmapne hfst
  have hmv : medianSelect ((decodePairs data).map Prod.snd) = v :=
    medianSelect_const hmapne2 hsnd
  have hcc : centerCurrents (decodePairs data) =
      List.replicate (decodePairs data).length 0 := by
    have hz : ∀ x ∈ centerCurrents (decodePairs data), x = 0 := by
      intro x hx
      obtain ⟨q, hq, rfl⟩ := List.mem_map.mp hx
      rw [hmc, hall q hq]
      ring
    have := List.eq_replicate_of_mem hz
    rwa [centerCurrents, List.length_map] at this
  have hcv : centerVoltages (decodePairs data) =
      List.replicate (decodePairs data).length 0 := by
    have hz : ∀ x ∈ centerVoltages (decodePairs data), x = 0 := by
      intro x hx
      obtain ⟨q, hq, rfl⟩ := List.mem_map.mp hx
      rw [hmv, hall q hq]
      ring
    have := List.eq_replicate_of_mem hz
    rwa [centerVoltages, List.length_map] at this
  have hscale : normScale (decodePairs data) = 1 := by
    rw [normScale, hcc, hcv, maxAbs_zeros (fun x hx => List.eq_of_mem_replicate hx)]
    simp
  refine ⟨?_, hscale⟩
  rw [parse_and_normalize_curve_data, normalizePairs,
    if_neg (by simpa [List.isEmpty_iff] using hne), hcc, hcv, hscale]
  simp

/-- C6 witness: the buffer decoding to two identical pairs `(7, 9)` normalizes
to two all-zero sequences with scale 1. -/
theorem C6_witness :
    parse_and_normalize_curve_data [7, 0, 9, 0, 7, 0, 9, 0] =
        Except.ok (List.replicate (decodePairs [7, 0, 9, 0, 7, 0, 9, 0]).length 0,
                   List.replicate (decodePairs [7, 0, 9, 0, 7, 0, 9, 0]).length 0)
      ∧ normScale (decodePairs [7, 0, 9, 0, 7, 0, 9, 0]) = 1 :=
  C6_degenerate_input_all_zero [7, 0, 9, 0, 7, 0, 9, 0] 7 9
    (by with_unfolding_all decide)
    (by with_unfolding_all decide)

/-! ### Claim C7 -/

/-- C7: the normalized output is invariant under a global additive offset of
all raw current values and all raw voltage values: if one buffer decodes to
the pairs of another shifted by `(kc, kv)`, both normalize to the same result,
because each median shifts by the same constant and centering removes it.
(Exact in the rational model; the float code agrees up to rounding.) -/
theorem C7_shift_invariance (b b' : List Nat) (kc kv : ℚ)
    (h : decodePairs b' = (decodePairs b).map (fun q => (q.1 + kc, q.2 + kv))) :
    parse_and_normalize_curve_data b' = parse_and_normalize_curve_data b := by
  rcases eq_or_ne (decodePairs b) [] with hnil | hne
  · rw [parse_and_normalize_curve_data, parse_and_normalize_curve_data, h, hnil]
    rfl
  · have hmapne : (decodePairs b).map Prod.fst ≠ [] := by simpa using hne
    have hmapne2 : (decodePairs b).map Prod.snd ≠ [] := by simpa using hne
    have hfst : (decodePairs b').map Prod.fst =
        ((decodePairs b).map Prod.fst).map (fun x => x + kc) := by
      rw [h, List.map_map, List.map_map]
      rfl
    have hsnd : (decodePairs b').map Prod.snd =
        ((decodePairs b).map Prod.snd).map (fun x => x + kv) := by
      rw [h, List.map_map, List.map_map]
      rfl
    have hmc : medianSelect ((decodePairs b').map Prod.fst) =
        medianSelect ((decodePairs b).map Prod.fst) + kc := by
      rw [hfst, medianSelect_map_add hmapne kc]
    have hmv : medianSelect ((decodePairs b').map Prod.snd) =
        medianSelect ((decodePairs b).map Prod.snd) + kv := by
      rw [hsnd, medianSelect_map_add hmapne2 kv]
    have hcc : centerCurrents (decodePairs b') = centerCurrents (decodePairs b) := by
      rw [centerCurrents, centerCurrents, hmc, h, List.map_map]
      apply List.map_congr_left
      intro q hq
      simp
    have hcv : centerVoltages (decodePairs b') = centerVoltages (decodePairs b) := by
      rw [centerVoltages, centerVoltages, hmv, h, List.map_map]
      apply List.map_congr_left
      intro q hq
      simp
    have hscale : normScale (decodePairs b') = normScale (decodePairs b) := by
      rw [normScale, normScale, hcc, hcv]
    rw [parse_and_normalize_curve_data, parse_and_normalize_curve_data,
      normalizePairs, normalizePairs, hcc, hcv, hscale]
    have : (decodePairs b').isEmpty = (decodePairs b).isEmpty := by
      rw [h]
      cases decodePairs b <;> rfl
    rw [this]

/-- C7 witness: the buffer decoding to pairs `[(2, 2), (4, 4)]` is the
`(kc, kv) = (1, 0)`-shift of the buffer decoding to `[(1, 2), (3, 4)]`, and
both normalize identically. -/
theorem C7_witness :
    parse_and_normalize_curve_data [2, 0, 2, 0, 4, 0, 4, 0] =
      parse_and_normalize_curve_data [1, 0, 2, 0, 3, 0, 4, 0] :=
  C7_shift_invariance [1, 0, 2, 0, 3, 0, 4, 0] [2, 0, 2, 0, 4, 0, 4, 0] 1 0
    (by with_unfolding_all decide)

/-! ### Claim C10 -/

/-- C10: whenever `parse_and_normalize_curve_data` succeeds, every element of
both returned sequences has absolute value at most 1, because the divisor is
at least the maximum absolute centered value and at least 1.  (The spec
promises only a "roughly [-1, 1]" range; the code meets the bound exactly.) -/
theorem C10_output_bounded (data : List Nat) (v i : List ℚ)
    (h : parse_and_normalize_curve_data data = Except.ok (v, i)) :
    (∀ x ∈ v, |x| ≤ 1) ∧ (∀ x ∈ i, |x| ≤ 1) := by
  rw [parse_and_normalize_curve_data, normalizePairs] at h
  by_cases hemp : (decodePairs data).isEmpty
  · rw [if_pos hemp] at h
    exact absurd h (by simp)
  · rw [if_neg hemp] at h
    simp only [Except.ok.injEq, Prod.mk.injEq] at h
    obtain ⟨hv, hi⟩ := h
    have hspos : 0 < normScale (decodePairs data) :=
      lt_of_lt_of_le one_pos (one_le_normScale _)
    constructor
    · intro x hx
      rw [← hv] at hx
      obtain ⟨y, hy, rfl⟩ := List.mem_map.mp hx
      have h1 : |y| ≤ maxAbs (centerVoltages (decodePairs data)) := abs_le_maxAbs hy
      have h2 : maxAbs (centerVoltages (decodePairs data)) ≤ normScale (decodePairs data) :=
        le_trans (le_max_right _ _) (le_max_left _ 1)
      rw [abs_div, abs_of_pos hspos]
      rw [div_le_one hspos]
      exact le_trans h1 h2
    · intro x hx
      rw [← hi] at hx
      obtain ⟨y, hy, rfl⟩ := List.mem_map.mp hx
      have h1 : |y| ≤ maxAbs (centerCurrents (decodePairs data)) := abs_le_maxAbs hy
      have h2 : maxAbs (centerCurrents (decodePairs data)) ≤ normScale (decodePairs data) :=
        le_trans (le_max_left _ _) (le_max_left _ 1)
      rw [abs_div, abs_of_pos hspos]
      rw [div_le_one hspos]
      exact le_trans h1 h2

/-- C10 witness: the buffer decoding to pairs `[(1, 2), (3, 4)]` normalizes
successfully and every output value has absolute value at most 1. -/
theorem C10_witness :
    (∀ x ∈ (([-1, 0] : List ℚ)), |x| ≤ 1) ∧ (∀ x ∈ (([-1, 0] : List ℚ)), |x| ≤ 1) :=
  C10_output_bounded [1, 0, 2, 0, 3, 0, 4, 0] [-1, 0] [-1, 0]
    (by with_unfolding_all rfl)

/-! ### Claim C9 -/

theorem read_one_curve_seek_eq :
    ∀ l : List (List Nat),
      read_one_curve_seek l =
        match seekHeaderL l with
        | none => Except.error "Erreur de lecture"
        | some (ch, k) => Except.ok (ch, l.drop k) := by
  intro l
  induction l with
  | nil => rfl
  | cons r rs ih =>
    conv_lhs => rw [read_one_curve_seek]
    rw [seekHeaderL_cons]
    cases hE : extract_payload r with
    | some p =>
      by_cases hH : isHeaderPayload p
      · simp [hH]
      · simp only [hH, if_false, Bool.false_eq_true, ih]
        cases hS : seekHeaderL rs with
        | none => rfl
        | some ci =>
          obtain ⟨ch, k⟩ := ci
          simp [List.drop_succ_cons]
    | none =>
      rw [ih]
      cases hS : seekHeaderL rs with
      | none => rfl
      | some ci =>
        obtain ⟨ch, k⟩ := ci
        simp [List.drop_succ_cons]

theorem read_one_curve_acc_take :
    ∀ (n : Nat) (l : List (List Nat)), n ≤ l.length →
      read_one_curve_acc n l = accPayloads (l.take n) := by
  intro n
  induction n with
  | zero => intro l _; rfl
  | succ n ih =>
    intro l hl
    cases l with
    | nil => simp at hl
    | cons r rs =>
      rw [List.take_succ_cons]
      conv_lhs => rw [read_one_curve_acc]
      conv_rhs => rw [accPayloads]
      cases hE : extract_payload r with
      | some p => rw [ih rs (by simpa using hl)]
      | none => rfl

theorem read_one_curve_acc_ok_length :
    ∀ (n : Nat) (l : List (List Nat)) (db : List Nat),
      read_one_curve_acc n l = Except.ok db → n ≤ l.length := by
  intro n
  induction n with
  | zero => intro l db _; exact Nat.zero_le _
  | succ n ih =>
    intro l db h
    cases l with
    | nil => exact absurd h (by simp [read_one_curve_acc])
    | cons r rs =>
      rw [read_one_curve_acc] at h
      cases hE : extract_payload r with
      | some p =>
        rw [hE] at h
        cases hacc : read_one_curve_acc n rs with
        | error e => rw [hacc] at h; exact absurd h (by simp [Except.map])
        | ok db' =>
          have := ih rs db' hacc
          simp [List.length_cons]
          omega
      | none => rw [hE] at h; exact absurd h (by simp)

/-- C9: over any finite sequence of raw reports, the live driver
(`read_one_curve`, reading the reports in order from the device) and the
replay driver (`read_one_curve_from_reports` from cursor 0) produce the same
curve: whenever either yields a `CurveData` the other yields the identical
one — same channel id, same voltage sequence, same current sequence — and
when one fails so does the other (the error texts may differ, live failures
being read errors where replay reports exhaustion). -/
theorem C9_replay_equals_live (reports : List (List Nat)) :
    ((read_one_curve_from_reports reports 0).1).toOption =
      (read_one_curve reports).toOption := by
  cases hS : seekHeaderL reports with
  | none =>
    rw [read_from_reports_none (by rw [List.drop_zero]; exact hS)]
    unfold read_one_curve
    rw [read_one_curve_seek_eq, hS]
    rfl
  | some ci =>
    obtain ⟨ch, k⟩ := ci
    rw [read_from_reports_some (by rw [List.drop_zero]; exact hS)]
    unfold read_one_curve
    rw [read_one_curve_seek_eq, hS]
    simp only [Nat.zero_add]
    by_cases hb : reports.length < k + REPORTS_PER_CURVE
    · rw [if_pos hb]
      cases hacc : read_one_curve_acc REPORTS_PER_CURVE (reports.drop k) with
      | error e => simp [hacc, Except.toOption]
      | ok db =>
        have hlen := read_one_curve_acc_ok_length _ _ _ hacc
        rw [List.length_drop] at hlen
        have hk := seekHeaderL_bounds hS
        omega
    · rw [if_neg hb]
      have hle : REPORTS_PER_CURVE ≤ (reports.drop k).length := by
        rw [List.length_drop]
        omega
      rw [read_one_curve_acc_take _ _ hle]
      cases haccp : accPayloads ((reports.drop k).take REPORTS_PER_CURVE) with
      | error e => simp [haccp, Except.toOption]
      | ok db =>
        cases hp : parse_and_normalize_curve_data db with
        | error e => simp [haccp, hp, Except.toOption]
        | ok vi =>
          obtain ⟨v, i⟩ := vi
          simp [haccp, hp, Except.toOption]

end CT220S
